import Mathlib

/-!
Verification of the Code Ocean job-tracking and result-download scripts.

The definitions below are a shallow embedding of `src/code-ocean-api/main.py`
(job submission and the monitoring loop) and `src/code-ocean-api/get_url.py`
(status probing, recursive result-tree listing, size/existence filtering and
the per-file download loop).  External effects (the Code Ocean HTTP API, the
local filesystem, the interactive confirmation prompt) are passed in as
explicit functions; machine integers are modelled as `Int`/`Nat` and the
megabyte arithmetic as exact rationals.
-/

namespace CodeOcean

/-- Terminal computation states, as listed in both scripts:
`["completed", "failed", "stopped"]`. -/
def terminalStates : List String := ["completed", "failed", "stopped"]

/-- The fields of a Code Ocean `Computation` that the scripts read:
`computation.state` (may be absent) and `computation.has_results`
(may be absent; the code coerces it with `or False`). -/
structure Computation where
  state : Option String
  hasResults : Option Bool
deriving DecidableEq, Repr

/-- One entry of a remote folder listing (`FolderItem`): its path and its
size, which the API may omit (`int | None` in the source). -/
structure FolderItem where
  path : String
  size : Option Int
deriving DecidableEq, Repr

/-! ### StatusProbe: `check_computation_status` (get_url.py lines 54-76) -/

/-- Embedding of `check_computation_status`.  The underlying
`get_computation` call is the explicit `lookup` argument; an exception is
modelled as `Except.error`.  On success it returns
`(computation.state, computation.has_results or False)`; on any failure it
logs and returns `(None, False)`. -/
def check_computation_status (lookup : String → Except String Computation)
    (computationId : String) : Option String × Bool :=
  match lookup computationId with
  | .ok comp => (comp.state, comp.hasResults.getD false)
  | .error _ => (none, false)

/-! ### Loading the batch manifest: `load_jobs_from_json` (get_url.py lines 30-51) -/

/-- Python truthiness of the `computation_id` field: `job_info.get(...)`
yields `None` when the key is missing or null, and `if computation_id:`
also rejects the empty string. -/
def truthyId : Option String → Bool
  | none => false
  | some s => !(s = "")

/-- Embedding of `load_jobs_from_json` restricted to the `data["jobs"]`
mapping: each entry is a job key paired with its (possibly missing or
empty) `computation_id`; only truthy ids are kept. -/
def loadJobsFromJson (jobsData : List (String × Option String)) :
    List (String × String) :=
  jobsData.filterMap fun kc =>
    match kc.2 with
    | some c => if c = "" then none else some (kc.1, c)
    | none => none

/-! ### The monitoring loop of main.py (lines 124-169) -/

/-- The per-job record the monitoring loop reads and writes: the
`computation_id` stored at submission time (`None` when submission failed)
and the `status` string. -/
structure JobInfo where
  computationId : Option String
  status : String
deriving DecidableEq, Repr

/-- Result of processing one job inside a polling pass: the updated record,
whether this job cleared `all_done` (set it to `False`), and the
computation id that was probed, if any. -/
structure PollStep where
  info : JobInfo
  clearsAllDone : Bool
  probed : Option String
deriving DecidableEq, Repr

/-- One iteration of the `for job_key, job_info in jobs.items()` body of the
monitoring loop.  A job with no computation id is printed and skipped
(`continue`) without touching `all_done`.  A successful probe overwrites
`status` with the reported state and clears `all_done` when
`state.lower()` is not terminal.  A failed probe sets
`status = "error_checking_status"` and - exactly as in the source - does
NOT clear `all_done`. -/
def pollJob (probe : String → Except String String) (j : JobInfo) : PollStep :=
  match j.computationId with
  | none => ⟨j, false, none⟩
  | some cid =>
    match probe cid with
    | .ok st => ⟨{ j with status := st }, !(terminalStates.contains st.toLower), some cid⟩
    | .error _ => ⟨{ j with status := "error_checking_status" }, false, some cid⟩

/-- One full polling pass over the job table: returns the updated table and
the final value of `all_done` (initialised to `True`). -/
def pollOnce (probe : String → Except String String) :
    List (String × JobInfo) → List (String × JobInfo) × Bool
  | [] => ([], true)
  | kj :: rest =>
    let step := pollJob probe kj.2
    let r := pollOnce probe rest
    ((kj.1, step.info) :: r.1, !step.clearsAllDone && r.2)

/-- The ids probed during one polling pass, in table order. -/
def pollOnceProbed (probe : String → Except String String)
    (jobs : List (String × JobInfo)) : List String :=
  jobs.filterMap fun kj => (pollJob probe kj.2).probed

/-- The `while True` monitoring loop: poll, and break when `all_done`
survived the pass.  `fuel` bounds the number of passes so the embedding is
total; `none` means the loop was still running after `fuel` passes. -/
def runUntilAllTerminal (probe : String → Except String String) :
    Nat → List (String × JobInfo) → Option (List (String × JobInfo))
  | 0, _ => none
  | Nat.succ fuel, jobs =>
    let r := pollOnce probe jobs
    if r.2 then some r.1 else runUntilAllTerminal probe fuel r.1

/-! ### TreeEnumerator: `list_all_files` (get_url.py lines 79-107) -/

/- The remote result namespace as seen through `list_computation_results`:
a listing at some path either raises (`lerr`, the `except` branch of the
source) or returns a sequence of entries; each entry carries the listing
that would be returned for its own path, so the recursion of
`list_all_files` is structural. -/
mutual
/-- Outcome of listing one remote path: an exception or its entries. -/
inductive RListing : Type where
  | lerr : String → RListing
  | lok : List REntry → RListing
/-- One entry of a remote listing: path, optional size, and the listing
of its own path. -/
inductive REntry : Type where
  | mk : String → Option Int → RListing → REntry
end

/-- The path of a listing entry (`item.path`). -/
def REntry.path : REntry → String
  | .mk p _ _ => p

/-- The size of a listing entry (`item.size`). -/
def REntry.size : REntry → Option Int
  | .mk _ sz _ => sz

/-- The listing of the entry's own path (what recursing into it sees). -/
def REntry.sub : REntry → RListing
  | .mk _ _ s => s

/- Embedding of `list_all_files` and its `for item in results.items` loop.
A failed listing contributes nothing (the exception is logged and the
accumulated `files` list - empty at that point - is returned).  An item
whose size is `None` or `0` is treated as a directory and recursed into;
any other item is appended as a leaf file. -/
mutual
/-- `list_all_files` on the listing outcome at one path. -/
def list_all_files : RListing → List FolderItem
  | .lerr _ => []
  | .lok items => listItems items
/-- The `for item in results.items` loop, front to back. -/
def listItems : List REntry → List FolderItem
  | [] => []
  | e :: rest => listItem e ++ listItems rest
/-- The loop body: recurse into a directory, emit a file. -/
def listItem : REntry → List FolderItem
  | .mk p sz sub =>
    match sz with
    | none => list_all_files sub
    | some s => if s = 0 then list_all_files sub else [⟨p, some s⟩]
end

/-! ### FilterPolicy: the filtering loop of `download_job` (get_url.py lines 196-228) -/

/-- `size / (1024 * 1024)` as an exact rational. -/
def sizeMb (size : Int) : ℚ := (size : ℚ) / (1024 * 1024)

/-- The megabyte size the report tables carry for an item (`0` can not
occur for a classified item, whose size is always present). -/
def mbOf (f : FolderItem) : ℚ :=
  match f.size with
  | some sz => sizeMb sz
  | none => 0

/-- `job_download_dir / path.lstrip("/")`: the local destination of a
remote object, with every leading slash stripped. -/
def destPath (destRoot : String) (p : String) : String :=
  destRoot ++ "/" ++ p.dropWhile (fun c => c = '/')

/-- Embedding of the filtering loop: items with no size are dropped with a
warning; items whose megabyte size exceeds the limit go to
`skipped_files`; items whose destination already exists (unless
`force_download`) go to `existing_files`; all remaining items go to
`files_to_download`.  The local filesystem is the explicit `fexists`
predicate.  Returns
`(files_to_download, skipped_files, existing_files)`. -/
def partitionFiles (fexists : String → Bool) (maxSizeMb : Option ℚ)
    (force : Bool) (destRoot : String) :
    List FolderItem → List FolderItem × List (String × ℚ) × List (String × ℚ)
  | [] => ([], [], [])
  | f :: rest =>
    let r := partitionFiles fexists maxSizeMb force destRoot rest
    match f.size with
    | none => r
    | some sz =>
      if (match maxSizeMb with
          | some m => decide (sizeMb sz > m)
          | none => false) then
        (r.1, (f.path, sizeMb sz) :: r.2.1, r.2.2)
      else if fexists (destPath destRoot f.path) && !force then
        (r.1, r.2.1, (f.path, sizeMb sz) :: r.2.2)
      else
        (f :: r.1, r.2.1, r.2.2)

/-- Boolean form of the size-limit test applied to one item. -/
def isSkippedBySize (maxSizeMb : Option ℚ) (f : FolderItem) : Bool :=
  match f.size, maxSizeMb with
  | some sz, some m => decide (sizeMb sz > m)
  | _, _ => false

/-- Boolean form of the already-present test applied to one item (only
reached when the size test did not fire). -/
def isAlreadyPresent (fexists : String → Bool) (maxSizeMb : Option ℚ)
    (force : Bool) (destRoot : String) (f : FolderItem) : Bool :=
  f.size.isSome && !isSkippedBySize maxSizeMb f &&
    (fexists (destPath destRoot f.path) && !force)

/-- Boolean form of the accept decision applied to one item. -/
def isToDownload (fexists : String → Bool) (maxSizeMb : Option ℚ)
    (force : Bool) (destRoot : String) (f : FolderItem) : Bool :=
  f.size.isSome && !isSkippedBySize maxSizeMb f &&
    !(fexists (destPath destRoot f.path) && !force)

/-! ### DownloadEngine: the per-file loop of `download_job` (get_url.py lines 324-365) -/

/-- Final status of one file's download task: downloaded, URL resolution
failed (`get_result_file_urls` raised), or the transfer itself failed
(`download_file` raised). -/
inductive TaskStatus : Type where
  | done : TaskStatus
  | urlError : TaskStatus
  | transferError : TaskStatus
deriving DecidableEq, Repr

/-- The outcome of one iteration of the download loop for the file at
path `p`: resolve the URL (failure marks the task errored and continues),
then stream the body (failure is logged; success writes the file). -/
def taskStatus (resolveUrl : String → Except String String)
    (fetchOk : String → Bool) (p : String) : TaskStatus :=
  match resolveUrl p with
  | .error _ => .urlError
  | .ok url => if fetchOk url then .done else .transferError

/-- The `for file_item in files_to_download` loop: per-file outcomes in
order, and the destination paths actually written.  A failure in one
iteration only advances the overall progress bar and moves on. -/
def runDownloadLoop (resolveUrl : String → Except String String)
    (fetchOk : String → Bool) (destRoot : String) :
    List FolderItem → List (String × TaskStatus) × List String
  | [] => ([], [])
  | f :: rest =>
    let r := runDownloadLoop resolveUrl fetchOk destRoot rest
    match resolveUrl f.path with
    | .error _ => ((f.path, .urlError) :: r.1, r.2)
    | .ok url =>
      if fetchOk url then
        ((f.path, .done) :: r.1, destPath destRoot f.path :: r.2)
      else
        ((f.path, .transferError) :: r.1, r.2)

/-- The four counts printed under "Download Summary" (get_url.py lines
233-238): total files found, files to download, files skipped by size,
files already existing.  There is no field for errors. -/
structure Summary where
  totalFiles : Nat
  toDownloadCount : Nat
  skippedCount : Nat
  existingCount : Nat
deriving DecidableEq, Repr

/-- Everything observable about one `download_job` call: its boolean
return value, whether it created the job's download directory, the
printed summary (absent when the call returned before printing it), the
per-file task outcomes of the download loop, and the destination paths
written. -/
structure DJResult where
  success : Bool
  madeJobDir : Bool
  summary : Option Summary
  perFile : List (String × TaskStatus)
  downloadedPaths : List String
deriving DecidableEq, Repr

/-- Embedding of `download_job` (get_url.py lines 132-365).  External
effects are explicit: `getComp` is the `get_computation` call for this
job, `tree` the remote listing namespace, `resolveUrl` / `fetchOk` the
URL resolution and transfer outcomes, `fexists` the local filesystem and
`confirm` the interactive prompt's answer.  Early exits: a failed
computation lookup, a non-terminal state, no results, or an empty file
scan each return `False` before the download directory is created;
an empty post-filter download set returns `True`; a declined prompt
returns `False`; otherwise the download loop runs and the call returns
`True` regardless of per-file errors. -/
def download_job (getComp : Except String Computation) (tree : RListing)
    (resolveUrl : String → Except String String) (fetchOk : String → Bool)
    (fexists : String → Bool) (confirm : Bool)
    (maxSizeMb : Option ℚ) (force : Bool) (destRoot : String) : DJResult :=
  match getComp with
  | .error _ => ⟨false, false, none, [], []⟩
  | .ok comp =>
    let nonTerminal :=
      match comp.state with
      | some s => !(terminalStates.contains s)
      | none => false
    if nonTerminal then ⟨false, false, none, [], []⟩
    else if !(comp.hasResults.getD false) then ⟨false, false, none, [], []⟩
    else
      let allFiles := list_all_files tree
      if allFiles.isEmpty then ⟨false, false, none, [], []⟩
      else
        let parts := partitionFiles fexists maxSizeMb force destRoot allFiles
        let summary : Summary :=
          ⟨allFiles.length, parts.1.length, parts.2.1.length, parts.2.2.length⟩
        if parts.1.isEmpty then ⟨true, true, some summary, [], []⟩
        else if !confirm then ⟨false, true, some summary, [], []⟩
        else
          let r := runDownloadLoop resolveUrl fetchOk destRoot parts.1
          ⟨true, true, some summary, r.1, r.2⟩

/-! ### The batch status phase of `main` (get_url.py lines 387-457) -/

/-- The rows of the status table: one per loaded job, in manifest order,
keyed by job key and computation id. -/
def statusTableKeys (loaded : List (String × String)) : List String :=
  loaded.map fun kc => kc.1

/-- The jobs queued for download: those whose probe reported a terminal
state together with `has_results` (`state.value in [...] and
has_results`); a probe that reported `state is None` renders an Error row
and is skipped. -/
def jobsToDownload (probe : String → Option String × Bool)
    (loaded : List (String × String)) : List (String × String) :=
  loaded.filter fun kc =>
    match probe kc.2 with
    | (some st, hr) => terminalStates.contains st && hr
    | (none, _) => false

/-- The "Jobs ready to download: m / n" totals printed after the table. -/
def readyTotals (probe : String → Option String × Bool)
    (loaded : List (String × String)) : Nat × Nat :=
  ((jobsToDownload probe loaded).length, loaded.length)

/-! ## Helper lemmas -/

/-- The filtering loop is equivalent to three order-preserving filters of
the input by the three per-item decisions. -/
theorem partitionFiles_eq_filters (fexists : String → Bool)
    (maxSizeMb : Option ℚ) (force : Bool) (destRoot : String)
    (files : List FolderItem) :
    partitionFiles fexists maxSizeMb force destRoot files =
      (files.filter (isToDownload fexists maxSizeMb force destRoot),
       (files.filter (isSkippedBySize maxSizeMb)).map (fun f => (f.path, mbOf f)),
       (files.filter (isAlreadyPresent fexists maxSizeMb force destRoot)).map
         (fun f => (f.path, mbOf f))) := by
  induction files with
  | nil => rfl
  | cons f rest ih =>
    simp only [partitionFiles, ih]
    cases hsz : f.size with
    | none =>
      simp [List.filter_cons, isToDownload, isSkippedBySize, isAlreadyPresent, hsz]
    | some sz =>
      cases hmax : maxSizeMb with
      | none =>
        cases hex : fexists (destPath destRoot f.path) && !force <;>
          simp [List.filter_cons, isToDownload, isSkippedBySize,
            isAlreadyPresent, hsz, hmax, hex, mbOf]
      | some m =>
        by_cases hgt : sizeMb sz > m
        · simp [List.filter_cons, isToDownload, isSkippedBySize,
            isAlreadyPresent, hsz, hmax, hgt, mbOf]
        · cases hex : fexists (destPath destRoot f.path) && !force <;>
            simp [List.filter_cons, isToDownload, isSkippedBySize,
              isAlreadyPresent, hsz, hmax, hgt, hex, mbOf]

/-- The enumeration of a concatenated listing is the concatenation of the
enumerations. -/
theorem listItems_append (xs ys : List REntry) :
    listItems (xs ++ ys) = listItems xs ++ listItems ys := by
  induction xs with
  | nil => rfl
  | cons e rest ih => simp [listItems, ih]

/-- One loop iteration, written as the container-vs-leaf decision the
source makes: size `None` or `0` recurses, anything else emits a leaf. -/
theorem listItem_eq_ite (p : String) (sz : Option Int) (sub : RListing) :
    listItem (.mk p sz sub) =
      if sz = none ∨ sz = some 0 then list_all_files sub else [⟨p, sz⟩] := by
  cases sz with
  | none => simp [listItem]
  | some s =>
    by_cases hs : s = 0
    · simp [listItem, hs]
    · simp [listItem, hs]

/-- Splicing: the enumeration of a listing around one distinguished entry
is the enumeration of the left part, then the entry's contribution, then
the enumeration of the right part. -/
theorem list_all_files_splice (pre post : List REntry) (p : String)
    (sz : Option Int) (sub : RListing) :
    list_all_files (.lok (pre ++ .mk p sz sub :: post)) =
      listItems pre ++
        (if sz = none ∨ sz = some 0 then list_all_files sub else [⟨p, sz⟩]) ++
        listItems post := by
  simp [list_all_files, listItems_append, listItems, listItem_eq_ite]

/-- A job entry whose `computation_id` is absent passes through a polling
pass untouched. -/
theorem mem_pollOnce_of_no_id (probe : String → Except String String)
    (jobs : List (String × JobInfo)) (k : String) (j : JobInfo)
    (hid : j.computationId = none) (hmem : (k, j) ∈ jobs) :
    (k, j) ∈ (pollOnce probe jobs).1 := by
  induction jobs with
  | nil => cases hmem
  | cons kj rest ih =>
    rcases List.mem_cons.mp hmem with h | h
    · subst h
      have hstep : pollJob probe j = ⟨j, false, none⟩ := by
        simp [pollJob, hid]
      simp [pollOnce, hstep]
    · simp only [pollOnce]
      exact List.mem_cons_of_mem _ (ih h)

/-- A job entry whose `computation_id` is absent survives the whole
monitoring loop untouched. -/
theorem mem_run_of_no_id (probe : String → Except String String)
    (k : String) (j : JobInfo) (hid : j.computationId = none) :
    ∀ (fuel : Nat) (jobs final : List (String × JobInfo)),
      (k, j) ∈ jobs → runUntilAllTerminal probe fuel jobs = some final →
      (k, j) ∈ final := by
  intro fuel
  induction fuel with
  | zero =>
    intro jobs final _ hrun
    simp [runUntilAllTerminal] at hrun
  | succ n ih =>
    intro jobs final hmem hrun
    simp only [runUntilAllTerminal] at hrun
    by_cases hd : (pollOnce probe jobs).2
    · rw [if_pos hd] at hrun
      cases hrun
      exact mem_pollOnce_of_no_id probe jobs k j hid hmem
    · rw [if_neg hd] at hrun
      exact ih _ _ (mem_pollOnce_of_no_id probe jobs k j hid hmem) hrun

/-- A manifest entry whose `computation_id` is falsy (missing, null or
empty) is dropped by `load_jobs_from_json`. -/
theorem loadJobs_cons_falsy (e : String × Option String)
    (rest : List (String × Option String)) (hf : truthyId e.2 = false) :
    loadJobsFromJson (e :: rest) = loadJobsFromJson rest := by
  obtain ⟨k', cid⟩ := e
  cases cid with
  | none => rfl
  | some c =>
    have hc : c = "" := by simpa [truthyId] using hf
    subst hc
    simp [loadJobsFromJson]

/-- A manifest entry with a non-empty `computation_id` is kept by
`load_jobs_from_json`. -/
theorem loadJobs_cons_truthy (k' c : String)
    (rest : List (String × Option String)) (hc : ¬ c = "") :
    loadJobsFromJson ((k', some c) :: rest) = (k', c) :: loadJobsFromJson rest := by
  simp [loadJobsFromJson, hc]

/-- The download loop assigns every task the outcome computed from that
task's own path alone: no iteration's failure influences another
iteration. -/
theorem runDownloadLoop_fst_eq_map (resolveUrl : String → Except String String)
    (fetchOk : String → Bool) (destRoot : String) (files : List FolderItem) :
    (runDownloadLoop resolveUrl fetchOk destRoot files).1 =
      files.map (fun f => (f.path, taskStatus resolveUrl fetchOk f.path)) := by
  induction files with
  | nil => rfl
  | cons f rest ih =>
    simp only [runDownloadLoop, List.map_cons]
    cases hr : resolveUrl f.path with
    | error e => simp [taskStatus, hr, ih]
    | ok url =>
      by_cases hf : fetchOk url = true
      · simp [taskStatus, hr, hf, ih]
      · simp [taskStatus, hr, hf, ih]

/-- Equational form of `download_job` on a successful computation lookup:
the nested early-exit checks written as plain conditionals. -/
theorem download_job_ok (comp : Computation) (tree : RListing)
    (resolveUrl : String → Except String String) (fetchOk : String → Bool)
    (fexists : String → Bool) (confirm : Bool) (maxSizeMb : Option ℚ)
    (force : Bool) (destRoot : String) :
    download_job (.ok comp) tree resolveUrl fetchOk fexists confirm maxSizeMb
        force destRoot =
      (if (match comp.state with
          | some s => !(terminalStates.contains s)
          | none => false) = true then ⟨false, false, none, [], []⟩
      else if (!(comp.hasResults.getD false)) = true then
        ⟨false, false, none, [], []⟩
      else if (list_all_files tree).isEmpty = true then
        ⟨false, false, none, [], []⟩
      else if (partitionFiles fexists maxSizeMb force destRoot
          (list_all_files tree)).1.isEmpty = true then
        ⟨true, true,
          some ⟨(list_all_files tree).length,
            (partitionFiles fexists maxSizeMb force destRoot
              (list_all_files tree)).1.length,
            (partitionFiles fexists maxSizeMb force destRoot
              (list_all_files tree)).2.1.length,
            (partitionFiles fexists maxSizeMb force destRoot
              (list_all_files tree)).2.2.length⟩, [], []⟩
      else if (!confirm) = true then
        ⟨false, true,
          some ⟨(list_all_files tree).length,
            (partitionFiles fexists maxSizeMb force destRoot
              (list_all_files tree)).1.length,
            (partitionFiles fexists maxSizeMb force destRoot
              (list_all_files tree)).2.1.length,
            (partitionFiles fexists maxSizeMb force destRoot
              (list_all_files tree)).2.2.length⟩, [], []⟩
      else
        ⟨true, true,
          some ⟨(list_all_files tree).length,
            (partitionFiles fexists maxSizeMb force destRoot
              (list_all_files tree)).1.length,
            (partitionFiles fexists maxSizeMb force destRoot
              (list_all_files tree)).2.1.length,
            (partitionFiles fexists maxSizeMb force destRoot
              (list_all_files tree)).2.2.length⟩,
          (runDownloadLoop resolveUrl fetchOk destRoot
            (partitionFiles fexists maxSizeMb force destRoot
              (list_all_files tree)).1).1,
          (runDownloadLoop resolveUrl fetchOk destRoot
            (partitionFiles fexists maxSizeMb force destRoot
              (list_all_files tree)).1).2⟩ : DJResult) := rfl

/-! ## Claim theorems -/

/-- Claim C1 (defect exhibited): the monitoring loop can return on a pass
in which a job's status probe failed.  With a single job whose probe
raises, the `except` branch records `"error_checking_status"` but does not
clear `all_done`, so the very first pass breaks the loop even though the
job's recorded state is not in the terminal set - refuting the claim that
the loop returns only when every recorded state is terminal. -/
theorem C1_probe_failure_ends_loop :
    runUntilAllTerminal (fun _ => .error "connection reset") 1
        [("run_0", ⟨some "comp-0", "submitted"⟩)] =
      some [("run_0", ⟨some "comp-0", "error_checking_status"⟩)] ∧
    terminalStates.contains "error_checking_status" = false := by
  exact ⟨rfl, by decide⟩

/-- Claim C5 (amended): a job whose submission failed (no computation id)
is never probed and never clears `all_done` - a polling pass returns it
untouched, so it is treated as immediately terminal and its recorded
status (the string `"submission_failed"` written at submission time,
not `"failed"`) survives the whole monitoring loop unchanged. -/
theorem C5_no_id_never_probed (probe : String → Except String String)
    (jobs final : List (String × JobInfo)) (k : String) (j : JobInfo)
    (fuel : Nat) (hid : j.computationId = none) (hmem : (k, j) ∈ jobs)
    (hrun : runUntilAllTerminal probe fuel jobs = some final) :
    pollJob probe j = ⟨j, false, none⟩ ∧ (k, j) ∈ final := by
  constructor
  · simp [pollJob, hid]
  · exact mem_run_of_no_id probe k j hid fuel jobs final hmem hrun

/-- Witness for C5 at a concrete submission-failed job. -/
theorem C5_witness :
    ((⟨none, "submission_failed"⟩ : JobInfo).computationId = none ∧
      ("run_0", (⟨none, "submission_failed"⟩ : JobInfo)) ∈
        [("run_0", (⟨none, "submission_failed"⟩ : JobInfo))] ∧
      runUntilAllTerminal (fun _ => .ok "completed") 1
          [("run_0", (⟨none, "submission_failed"⟩ : JobInfo))] =
        some [("run_0", (⟨none, "submission_failed"⟩ : JobInfo))]) ∧
    (pollJob (fun _ => .ok "completed") ⟨none, "submission_failed"⟩ =
        ⟨⟨none, "submission_failed"⟩, false, none⟩ ∧
      ("run_0", (⟨none, "submission_failed"⟩ : JobInfo)) ∈
        [("run_0", (⟨none, "submission_failed"⟩ : JobInfo))]) :=
  ⟨⟨rfl, List.mem_singleton.mpr rfl, rfl⟩,
    C5_no_id_never_probed (fun _ => .ok "completed")
      [("run_0", ⟨none, "submission_failed"⟩)]
      [("run_0", ⟨none, "submission_failed"⟩)]
      "run_0" ⟨none, "submission_failed"⟩ 1 rfl
      (List.mem_singleton.mpr rfl) rfl⟩

/-- Counterexample to C5 as stated: after the loop ends, the recorded
state of the submission-failed job is the string `"submission_failed"`,
not `"failed"` (and not a member of the terminal-state list). -/
theorem C5_status_is_not_failed :
    runUntilAllTerminal (fun _ => .ok "completed") 1
        [("run_1", ⟨none, "submission_failed"⟩)] =
      some [("run_1", ⟨none, "submission_failed"⟩)] ∧
    "submission_failed" ≠ "failed" ∧
    terminalStates.contains "submission_failed" = false :=
  ⟨rfl, by decide, by decide⟩

/-- Claim C3: the filter partition is exhaustive and order-preserving:
the three output sets are order-preserving filters of the input list, and
for every object the three accept decisions fire exactly once when
`size_bytes` is present and never when it is absent - so every object with
a size appears in exactly one output set and a sizeless object appears in
none. -/
theorem C3_partition_exhaustive_order_preserving (fexists : String → Bool)
    (maxSizeMb : Option ℚ) (force : Bool) (destRoot : String)
    (files : List FolderItem) :
    partitionFiles fexists maxSizeMb force destRoot files =
      (files.filter (isToDownload fexists maxSizeMb force destRoot),
       (files.filter (isSkippedBySize maxSizeMb)).map (fun f => (f.path, mbOf f)),
       (files.filter (isAlreadyPresent fexists maxSizeMb force destRoot)).map
         (fun f => (f.path, mbOf f))) ∧
    ∀ f : FolderItem,
      (isToDownload fexists maxSizeMb force destRoot f).toNat +
          (isSkippedBySize maxSizeMb f).toNat +
          (isAlreadyPresent fexists maxSizeMb force destRoot f).toNat =
        if f.size.isSome then 1 else 0 := by
  refine ⟨partitionFiles_eq_filters fexists maxSizeMb force destRoot files, ?_⟩
  intro f
  cases hsz : f.size with
  | none => simp [isToDownload, isSkippedBySize, isAlreadyPresent, hsz]
  | some sz =>
    simp only [isToDownload, isAlreadyPresent, hsz, Option.isSome_some,
      Bool.true_and, if_pos]
    cases hskip : isSkippedBySize maxSizeMb f <;>
      cases hex : fexists (destPath destRoot f.path) && !force <;>
        simp [hskip, hex]

/-- Claim C9: in batch download mode, every manifest entry for a job key
whose `computation_id` is missing, null, or empty is silently excluded
from the loaded job set: the key appears in no status-table row and in no
queued download, the loaded set is the same as if the entry were absent,
the empty string is never among the probed computation ids, and the
"ready to download" totals are unchanged by removing the entry. -/
theorem C9_falsy_id_leaves_no_trace (data : List (String × Option String))
    (k : String) (probe : String → Option String × Bool)
    (h : ∀ e ∈ data, e.1 = k → truthyId e.2 = false) :
    k ∉ statusTableKeys (loadJobsFromJson data) ∧
    k ∉ (jobsToDownload probe (loadJobsFromJson data)).map (fun kc => kc.1) ∧
    loadJobsFromJson data = loadJobsFromJson (data.filter (fun e => e.1 != k)) ∧
    ((loadJobsFromJson data).map (fun kc => kc.2)).contains "" = false ∧
    readyTotals probe (loadJobsFromJson data) =
      readyTotals probe (loadJobsFromJson (data.filter (fun e => e.1 != k))) := by
  have hmain : ∀ (d : List (String × Option String)),
      (∀ e ∈ d, e.1 = k → truthyId e.2 = false) →
      k ∉ (loadJobsFromJson d).map (fun kc => kc.1) ∧
      loadJobsFromJson d = loadJobsFromJson (d.filter (fun e => e.1 != k)) ∧
      ((loadJobsFromJson d).map (fun kc => kc.2)).contains "" = false := by
    intro d
    induction d with
    | nil => intro _; exact ⟨by simp [loadJobsFromJson], rfl, by simp [loadJobsFromJson]⟩
    | cons e rest ih =>
      intro hd
      obtain ⟨ih1, ih2, ih3⟩ :=
        ih (fun e' he' hk => hd e' (List.mem_cons_of_mem _ he') hk)
      obtain ⟨k', cid⟩ := e
      by_cases hk : k' = k
      · have hfalsy : truthyId cid = false :=
          hd (k', cid) (List.mem_cons_self _ _) hk
        have hdrop := loadJobs_cons_falsy (k', cid) rest hfalsy
        refine ⟨by rw [hdrop]; exact ih1, ?_, by rw [hdrop]; exact ih3⟩
        rw [hdrop, ih2]
        have : ((k', cid) :: rest).filter (fun e => e.1 != k) =
            rest.filter (fun e => e.1 != k) := by
          simp [List.filter_cons, hk]
        rw [this]
      · cases cid with
        | none =>
          have hdrop := loadJobs_cons_falsy (k', none) rest rfl
          refine ⟨by rw [hdrop]; exact ih1, ?_, by rw [hdrop]; exact ih3⟩
          rw [hdrop, ih2]
          have hkeep : ((k', none) :: rest).filter (fun e => e.1 != k) =
              (k', (none : Option String)) :: rest.filter (fun e => e.1 != k) := by
            simp [List.filter_cons, hk]
          rw [hkeep, loadJobs_cons_falsy (k', none) _ rfl]
        | some c =>
          by_cases hc : c = ""
          · subst hc
            have hdrop := loadJobs_cons_falsy (k', some "") rest rfl
            refine ⟨by rw [hdrop]; exact ih1, ?_, by rw [hdrop]; exact ih3⟩
            rw [hdrop, ih2]
            have hkeep : ((k', some "") :: rest).filter (fun e => e.1 != k) =
                (k', some "") :: rest.filter (fun e => e.1 != k) := by
              simp [List.filter_cons, hk]
            rw [hkeep, loadJobs_cons_falsy (k', some "") _ rfl]
          · have hkeep := loadJobs_cons_truthy k' c rest hc
            refine ⟨?_, ?_, ?_⟩
            · rw [hkeep]
              intro hmem
              rcases List.mem_map.mp hmem with ⟨kc, hkc, hfst⟩
              rcases List.mem_cons.mp hkc with hhd | htl
              · exact hk (by rw [hhd] at hfst; exact hfst)
              · exact ih1 (List.mem_map.mpr ⟨kc, htl, hfst⟩)
            · rw [hkeep, ih2]
              have hfil : ((k', some c) :: rest).filter (fun e => e.1 != k) =
                  (k', some c) :: rest.filter (fun e => e.1 != k) := by
                simp [List.filter_cons, hk]
              rw [hfil, loadJobs_cons_truthy k' c _ hc]
            · rw [hkeep]
              simp only [List.map_cons, List.contains_cons, Bool.or_eq_false_iff]
              exact ⟨beq_eq_false_iff_ne.mpr (Ne.symm hc), ih3⟩
  obtain ⟨h1, h2, h3⟩ := hmain data h
  refine ⟨h1, ?_, h2, h3, by rw [readyTotals, readyTotals, h2]⟩
  intro hmem
  rcases List.mem_map.mp hmem with ⟨kc, hkc, hfst⟩
  exact h1 (List.mem_map.mpr ⟨kc, (List.mem_filter.mp hkc).1, hfst⟩)

/-- Witness for C9 at a concrete manifest with one missing, one null-like
and one empty computation id alongside a healthy job. -/
theorem C9_witness :
    (∀ e ∈ [("a", (none : Option String)), ("b", some ""), ("c", some "comp-3")],
      e.1 = "b" → truthyId e.2 = false) ∧
    ("b" ∉ statusTableKeys (loadJobsFromJson
        [("a", none), ("b", some ""), ("c", some "comp-3")]) ∧
      "b" ∉ (jobsToDownload (fun _ => (some "completed", true))
          (loadJobsFromJson
            [("a", none), ("b", some ""), ("c", some "comp-3")])).map
          (fun kc => kc.1) ∧
      loadJobsFromJson [("a", none), ("b", some ""), ("c", some "comp-3")] =
        loadJobsFromJson
          ([("a", none), ("b", some ""), ("c", some "comp-3")].filter
            (fun e => e.1 != "b")) ∧
      ((loadJobsFromJson
          [("a", none), ("b", some ""), ("c", some "comp-3")]).map
          (fun kc => kc.2)).contains "" = false ∧
      readyTotals (fun _ => (some "completed", true))
          (loadJobsFromJson
            [("a", none), ("b", some ""), ("c", some "comp-3")]) =
        readyTotals (fun _ => (some "completed", true))
          (loadJobsFromJson
            ([("a", none), ("b", some ""), ("c", some "comp-3")].filter
              (fun e => e.1 != "b")))) :=
  ⟨by decide,
    C9_falsy_id_leaves_no_trace
      [("a", none), ("b", some ""), ("c", some "comp-3")] "b"
      (fun _ => (some "completed", true)) (by decide)⟩

/-- Claim C2 (amended): a URL-resolution or transfer failure of one
object affects only that object's task - every recorded task outcome is
computed from that task's own path alone, so every other task still runs
to its own completion - but the run's final summary does not report the
count of errored objects: the printed summary and the boolean result are
identical under any two resolution/transfer behaviours. -/
theorem C2_error_isolation_summary_blind (getComp : Except String Computation)
    (tree : RListing) (r₁ r₂ : String → Except String String)
    (f₁ f₂ : String → Bool) (fexists : String → Bool) (confirm : Bool)
    (maxSizeMb : Option ℚ) (force : Bool) (destRoot : String) :
    (download_job getComp tree r₁ f₁ fexists confirm maxSizeMb force
        destRoot).perFile =
      ((download_job getComp tree r₁ f₁ fexists confirm maxSizeMb force
        destRoot).perFile.map (fun e => e.1)).map
        (fun p => (p, taskStatus r₁ f₁ p)) ∧
    (download_job getComp tree r₁ f₁ fexists confirm maxSizeMb force
        destRoot).summary =
      (download_job getComp tree r₂ f₂ fexists confirm maxSizeMb force
        destRoot).summary ∧
    (download_job getComp tree r₁ f₁ fexists confirm maxSizeMb force
        destRoot).success =
      (download_job getComp tree r₂ f₂ fexists confirm maxSizeMb force
        destRoot).success := by
  cases getComp with
  | error e => exact ⟨rfl, rfl, rfl⟩
  | ok comp =>
    simp only [download_job_ok]
    by_cases h1 : (match comp.state with
        | some s => !(terminalStates.contains s)
        | none => false) = true
    · simp only [if_pos h1]
      simp
    · simp only [if_neg h1]
      by_cases h2 : (!(comp.hasResults.getD false)) = true
      · simp only [if_pos h2]
        simp
      · simp only [if_neg h2]
        by_cases h3 : (list_all_files tree).isEmpty = true
        · simp only [if_pos h3]
          simp
        · simp only [if_neg h3]
          by_cases h4 : (partitionFiles fexists maxSizeMb force destRoot
              (list_all_files tree)).1.isEmpty = true
          · simp only [if_pos h4]
            simp
          · simp only [if_neg h4]
            by_cases h5 : (!confirm) = true
            · simp only [if_pos h5]
              simp
            · simp only [if_neg h5]
              exact ⟨by rw [runDownloadLoop_fst_eq_map]
                        simp [List.map_map, Function.comp],
                by simp, by simp⟩

/-- Scenario D remote tree: three small files at the result root. -/
def treeD : RListing :=
  .lok [.mk "/x.bin" (some 1) (.lok []),
        .mk "/y.bin" (some 2) (.lok []),
        .mk "/z.bin" (some 3) (.lok [])]

/-- URL resolution that raises exactly for `/x.bin`. -/
def resolveFailX : String → Except String String :=
  fun p => if p = "/x.bin" then .error "resolution error" else .ok p

/-- Scenario D run of `download_job`: terminal completed computation with
results, no size limit, empty destination, confirmed prompt. -/
def jobD (resolve : String → Except String String) : DJResult :=
  download_job (.ok ⟨some "completed", some true⟩) treeD resolve (fun _ => true)
    (fun _ => false) true none false "dl/job-1"

/-- Counterexample to C2 as stated: in Scenario D the failing object's
task ends in `urlError` while every other task completes, but the final
summary is identical to the summary of a fully successful run - one run
has one errored object and the other none, yet both report the same
summary and the same `True` result, so the summary does not report the
count of errored objects. -/
theorem C2_summary_blind_counterexample :
    (jobD resolveFailX).perFile =
      [("/x.bin", .urlError), ("/y.bin", .done), ("/z.bin", .done)] ∧
    ((jobD resolveFailX).perFile.countP
      (fun e => decide (e.2 ≠ TaskStatus.done))) = 1 ∧
    ((jobD (fun p => .ok p)).perFile.countP
      (fun e => decide (e.2 ≠ TaskStatus.done))) = 0 ∧
    (jobD resolveFailX).summary = (jobD (fun p => .ok p)).summary ∧
    (jobD resolveFailX).success = true ∧
    (jobD (fun p => .ok p)).success = true := by
  refine ⟨?_, ?_, ?_, ?_, ?_, ?_⟩ <;> decide

/-- Claim C10: when the computation lookup reports a terminal state with
results but the recursive enumeration yields zero leaf objects (for
instance because every listing call failed and was swallowed), the
per-job download returns failure without creating the job's destination
directory, printing a summary, or transferring anything. -/
theorem C10_empty_scan_returns_failure (comp : Computation) (tree : RListing)
    (resolveUrl : String → Except String String) (fetchOk : String → Bool)
    (fexists : String → Bool) (confirm : Bool) (maxSizeMb : Option ℚ)
    (force : Bool) (destRoot : String) (st : String)
    (hstate : comp.state = some st)
    (hterm : terminalStates.contains st = true)
    (hres : comp.hasResults.getD false = true)
    (hempty : list_all_files tree = []) :
    download_job (.ok comp) tree resolveUrl fetchOk fexists confirm maxSizeMb
        force destRoot =
      ⟨false, false, none, [], []⟩ := by
  rw [download_job_ok]
  rw [if_neg (by rw [hstate]; simp; exact List.mem_of_elem_eq_true hterm),
    if_neg (by simp [hres]),
    if_pos (by simp [hempty])]

/-- Witness for C10: a completed computation with results whose root
listing raised, so the enumeration is empty. -/
theorem C10_witness :
    ((⟨some "completed", some true⟩ : Computation).state = some "completed" ∧
      terminalStates.contains "completed" = true ∧
      (⟨some "completed", some true⟩ : Computation).hasResults.getD false = true ∧
      list_all_files (.lerr "listing failed") = []) ∧
    download_job (.ok ⟨some "completed", some true⟩) (.lerr "listing failed")
        (fun p => .ok p) (fun _ => true) (fun _ => false) true none false
        "dl/job-2" =
      ⟨false, false, none, [], []⟩ :=
  ⟨⟨rfl, by decide, rfl, rfl⟩,
    C10_empty_scan_returns_failure ⟨some "completed", some true⟩
      (.lerr "listing failed") (fun p => .ok p) (fun _ => true)
      (fun _ => false) true none false "dl/job-2" "completed"
      rfl (by decide) rfl rfl⟩

/-- Claim C8: idempotent resume.  If after a first run with
`force = false` every accepted object's destination file exists (and no
file present before is gone), then a second run of the filter over the
same object list against the same destination with `force = false`
produces an empty `files_to_download` set, and every object accepted by
the first run is routed to `existing_files`. -/
theorem C8_second_run_downloads_nothing (files : List FolderItem)
    (maxSizeMb : Option ℚ) (destRoot : String) (ex₁ ex₂ : String → Bool)
    (h₁ : ∀ f ∈ (partitionFiles ex₁ maxSizeMb false destRoot files).1,
      ex₂ (destPath destRoot f.path) = true)
    (h₂ : ∀ p, ex₁ p = true → ex₂ p = true) :
    (partitionFiles ex₂ maxSizeMb false destRoot files).1 = [] ∧
    ∀ f ∈ (partitionFiles ex₁ maxSizeMb false destRoot files).1,
      (f.path, mbOf f) ∈
        (partitionFiles ex₂ maxSizeMb false destRoot files).2.2 := by
  simp only [partitionFiles_eq_filters] at h₁ ⊢
  constructor
  · rw [List.filter_eq_nil_iff]
    intro f hf hp2
    simp only [isToDownload, Bool.and_eq_true] at hp2
    obtain ⟨⟨hA, hB⟩, hC⟩ := hp2
    have hBf : isSkippedBySize maxSizeMb f = false := by simpa using hB
    have hex2 : ex₂ (destPath destRoot f.path) = true := by
      by_cases hd1 : isToDownload ex₁ maxSizeMb false destRoot f = true
      · exact h₁ f (List.mem_filter.mpr ⟨hf, hd1⟩)
      · cases hx1 : ex₁ (destPath destRoot f.path) with
        | true => exact h₂ _ hx1
        | false =>
          exact absurd (by simp [isToDownload, hA, hBf, hx1]) hd1
    rw [hex2] at hC
    simp at hC
  · intro f hfmem
    have hf := (List.mem_filter.mp hfmem).1
    have hd1 := (List.mem_filter.mp hfmem).2
    have hex2 : ex₂ (destPath destRoot f.path) = true := h₁ f hfmem
    have hpresent :
        isAlreadyPresent ex₂ maxSizeMb false destRoot f = true := by
      simp only [isToDownload, Bool.and_eq_true] at hd1
      obtain ⟨⟨hA, hB⟩, _⟩ := hd1
      have hBf : isSkippedBySize maxSizeMb f = false := by simpa using hB
      simp [isAlreadyPresent, hA, hBf, hex2]
    exact List.mem_map_of_mem _ (List.mem_filter.mpr ⟨hf, hpresent⟩)

/-- Witness for C8: one small object, absent before the first run and
present (downloaded) before the second. -/
theorem C8_witness :
    ((∀ f ∈ (partitionFiles (fun _ => false) none false "root"
        [⟨"/a.bin", some 100⟩]).1,
      (fun _ => true : String → Bool) (destPath "root" f.path) = true) ∧
      (∀ p : String, (fun _ => false : String → Bool) p = true →
        (fun _ => true : String → Bool) p = true)) ∧
    ((partitionFiles (fun _ => true) none false "root"
        [⟨"/a.bin", some 100⟩]).1 = [] ∧
      ∀ f ∈ (partitionFiles (fun _ => false) none false "root"
          [⟨"/a.bin", some 100⟩]).1,
        (f.path, mbOf f) ∈
          (partitionFiles (fun _ => true) none false "root"
            [⟨"/a.bin", some 100⟩]).2.2) :=
  ⟨⟨fun _ _ => rfl, fun _ _ => rfl⟩,
    C8_second_run_downloads_nothing [⟨"/a.bin", some 100⟩] none "root"
      (fun _ => false) (fun _ => true) (fun _ _ => rfl) (fun _ _ => rfl)⟩

/-- Claim C6 (amended): the tree enumerator treats an entry whose size is
null or exactly zero as a container - recursing into it and splicing its
descendants into the result - and emits every other entry, including one
with a negative size, as a leaf object with its path and size; a
zero-byte real file is therefore classified as a container and never
emitted as a leaf. -/
theorem C6_container_decision (pre post : List REntry) (p : String)
    (sz : Option Int) (sub : RListing) :
    list_all_files (.lok (pre ++ .mk p sz sub :: post)) =
      listItems pre ++
        (if sz = none ∨ sz = some 0 then list_all_files sub else [⟨p, sz⟩]) ++
        listItems post ∧
    list_all_files (.lok (pre ++ .mk p (some 0) sub :: post)) =
      listItems pre ++ list_all_files sub ++ listItems post := by
  constructor
  · exact list_all_files_splice pre post p sz sub
  · rw [list_all_files_splice pre post p (some 0) sub]
    simp

/-- Counterexample to C6 as stated: an entry of size `-1` (which is `≤ 0`)
is not treated as a container - it is emitted as a leaf and its child
listing is never spliced in. -/
theorem C6_negative_size_is_leaf :
    (-1 : Int) ≤ 0 ∧
    list_all_files (.lok [.mk "/neg" (some (-1))
        (.lok [.mk "/neg/child.bin" (some 5) (.lok [])])]) =
      [⟨"/neg", some (-1)⟩] := by
  exact ⟨by decide, rfl⟩

/-- Claim C7: the tree enumerator never raises on a listing failure: a
failed listing at the root yields the empty enumeration, and an entry
recursed into (size null or zero) whose own listing fails contributes
nothing while the leaves of every sibling subtree are still returned. -/
theorem C7_listing_failure_tolerated (m : String) (pre post : List REntry)
    (p : String) :
    list_all_files (.lerr m) = [] ∧
    list_all_files (.lok (pre ++ .mk p none (.lerr m) :: post)) =
      listItems pre ++ listItems post ∧
    list_all_files (.lok (pre ++ .mk p (some 0) (.lerr m) :: post)) =
      listItems pre ++ listItems post := by
  refine ⟨rfl, ?_, ?_⟩
  · rw [list_all_files_splice pre post p none (.lerr m)]
    simp [list_all_files]
  · rw [list_all_files_splice pre post p (some 0) (.lerr m)]
    simp [list_all_files]

/-- Claim C4: for every computation id, the status probe never raises past
its boundary: when the underlying status lookup fails for any reason, the
probe returns `(state = unknown, has_results = false)`, and in the batch
status phase the unreachable job is merely skipped - the set of jobs
queued for download is the same as if that job were absent - so one
unreachable job cannot abort a batch poll. -/
theorem C4_probe_failure_contained (lookup : String → Except String Computation)
    (cid : String) (e : String) (loaded : List (String × String))
    (h : lookup cid = .error e) :
    check_computation_status lookup cid = (none, false) ∧
    jobsToDownload (check_computation_status lookup) loaded =
      jobsToDownload (check_computation_status lookup)
        (loaded.filter fun kc => kc.2 != cid) := by
  have hprobe : check_computation_status lookup cid = (none, false) := by
    simp [check_computation_status, h]
  refine ⟨hprobe, ?_⟩
  unfold jobsToDownload
  rw [List.filter_filter]
  apply List.filter_congr
  intro a _
  by_cases hc : a.2 = cid
  · have hval : check_computation_status lookup a.2 = (none, false) := by
      rw [hc]; exact hprobe
    rw [hval]
    simp
  · have hne : (a.2 != cid) = true := by simp [hc]
    rw [hne, Bool.and_true]

/-- Witness for C4 at a concrete unreachable computation. -/
theorem C4_witness :
    ((fun _ => .error "connection refused" :
        String → Except String Computation) "comp-1" =
      .error "connection refused") ∧
    (check_computation_status (fun _ => .error "connection refused") "comp-1" =
        (none, false) ∧
      jobsToDownload
          (check_computation_status (fun _ => .error "connection refused"))
          [("j1", "comp-1"), ("j2", "comp-2")] =
        jobsToDownload
          (check_computation_status (fun _ => .error "connection refused"))
          ([("j1", "comp-1"), ("j2", "comp-2")].filter fun kc =>
            kc.2 != "comp-1")) :=
  ⟨rfl, C4_probe_failure_contained (fun _ => .error "connection refused")
    "comp-1" "connection refused" [("j1", "comp-1"), ("j2", "comp-2")] rfl⟩

end CodeOcean
